import Mathlib

/-
Shallow embedding of `src/toil/fileStore/fileStore.py` (the worker-side
file-staging layer): Python exceptions become `Except`/`Option` results,
`dill` serialization becomes a concrete injective byte encoding with a
verified decoder, the filesystem becomes an explicit map from paths to
file contents, and streams become explicit state passing.  Every
definition mirrors the corresponding Python function; comments cite the
source lines.
-/

/-- Python exceptions that the embedded code can raise. -/
inductive PyErr where
  | assertionError
  | osError (errno : Nat)
  | notImplementedError
  | fileNotFoundError
  | unpicklingError
deriving DecidableEq, Repr

/-- errno ESRCH ("no such process"), as in Python's `errno.ESRCH`. -/
def ESRCH : Nat := 3

/-- errno EPERM ("permission denied" for signals). -/
def EPERM : Nat := 1

/-- errno for an I/O error, used to model a failing backing-stream write. -/
def errnoEIO : Nat := 5

/-- FileStore._pidExists (fileStore.py:510-530).  `killOutcome` models the
result of `os.kill(pid, 0)`: `none` when the no-op signal succeeds, `some e`
when it raises `OSError` with errno `e`.  The Python code asserts `pid > 0`,
returns `False` on ESRCH, `True` on success, and re-raises every other
`OSError`. -/
def FileStore._pidExists (pid : Int) (killOutcome : Option Nat) : Except PyErr Bool :=
  if 0 < pid then
    match killOutcome with
    | none => .ok true
    | some e => if e = ESRCH then .ok false else .error (.osError e)
  else .error .assertionError

/-- A Python value that can appear in deferred-function arguments and in
persisted state dictionaries (a small but representative universe). -/
inductive Value where
  | vnat (n : Nat)
  | vstr (s : String)
deriving DecidableEq, Repr

/-- Serialized byte strings (the output of `dill.dumps`). -/
abbrev Bytes := List Nat

/-- Encode a string: length followed by the character codes. -/
def encStr (s : String) : Bytes :=
  s.length :: s.data.map Char.toNat

/-- Decode a string encoded by `encStr`, returning the remaining bytes. -/
def decStr : Bytes → Option (String × Bytes)
  | n :: rest =>
    if n ≤ rest.length then
      some (String.mk ((rest.take n).map Char.ofNat), rest.drop n)
    else none
  | [] => none

/-- Encode a `Value` with a leading tag. -/
def encValue : Value → Bytes
  | .vnat n => 0 :: [n]
  | .vstr s => 1 :: encStr s

/-- Decode a `Value` encoded by `encValue`. -/
def decValue : Bytes → Option (Value × Bytes)
  | 0 :: n :: rest => some (.vnat n, rest)
  | 1 :: rest => (decStr rest).map (fun p => (.vstr p.1, p.2))
  | _ => none

/-- Encode a list: length prefix, then the encoded elements. -/
def encListWith (enc : α → Bytes) (xs : List α) : Bytes :=
  xs.length :: xs.foldr (fun x acc => enc x ++ acc) []

/-- Decode `n` consecutive elements. -/
def decListWithAux (dec : Bytes → Option (α × Bytes)) : Nat → Bytes → Option (List α × Bytes)
  | 0, b => some ([], b)
  | n + 1, b =>
    match dec b with
    | some (x, r) =>
      match decListWithAux dec n r with
      | some (xs, r2) => some (x :: xs, r2)
      | none => none
    | none => none

/-- Decode a list encoded by `encListWith`. -/
def decListWith (dec : Bytes → Option (α × Bytes)) : Bytes → Option (List α × Bytes)
  | n :: rest => decListWithAux dec n rest
  | [] => none

/-- Encode a (string key, value) pair, as found in kwargs and state dicts. -/
def encPairSV (p : String × Value) : Bytes :=
  encStr p.1 ++ encValue p.2

/-- Decode a pair encoded by `encPairSV`. -/
def decPairSV (b : Bytes) : Option ((String × Value) × Bytes) :=
  match decStr b with
  | some (s, r) =>
    match decValue r with
    | some (v, r2) => some ((s, v), r2)
    | none => none
  | none => none

/-- The callables that can be captured by `DeferredFunction.create`: a
representative universe of picklable Python functions.  `sumArgs` adds up
all numeric arguments, `constF` returns a constant, `raising` raises an
`OSError`. -/
inductive PyFunc where
  | sumArgs
  | constF (v : Value)
  | raising (errno : Nat)
deriving DecidableEq, Repr

/-- Numeric content of a `Value` (non-numbers count as 0), used by `sumArgs`. -/
def Value.toNatVal : Value → Nat
  | .vnat n => n
  | .vstr _ => 0

/-- Python's `function.__name__` for each callable in the universe. -/
def PyFunc.pyName : PyFunc → String
  | .sumArgs => "sumArgs"
  | .constF _ => "constF"
  | .raising _ => "raising"

/-- Calling `f(*args, **kwargs)` in Python: may return a value or raise. -/
def PyFunc.apply : PyFunc → List Value → List (String × Value) → Except PyErr Value
  | .sumArgs, args, kwargs =>
    .ok (.vnat ((args.map Value.toNatVal).sum + ((kwargs.map Prod.snd).map Value.toNatVal).sum))
  | .constF v, _, _ => .ok v
  | .raising e, _, _ => .error (.osError e)

/-- Encode a callable (the picklable code object). -/
def encPyFunc : PyFunc → Bytes
  | .sumArgs => [0]
  | .constF v => 1 :: encValue v
  | .raising e => [2, e]

/-- Decode a callable encoded by `encPyFunc`. -/
def decPyFunc : Bytes → Option (PyFunc × Bytes)
  | 0 :: rest => some (.sumArgs, rest)
  | 1 :: rest => (decValue rest).map (fun p => (.constF p.1, p.2))
  | 2 :: e :: rest => some (.raising e, rest)
  | _ => none

/-- dill.dumps applied to a callable. -/
def dillDumpsFunc (f : PyFunc) : Bytes := encPyFunc f

/-- dill.loads of a callable: the whole byte string must parse (a truncated
or corrupt pickle fails). -/
def dillLoadsFunc (b : Bytes) : Option PyFunc :=
  match decPyFunc b with
  | some (f, []) => some f
  | _ => none

/-- dill.dumps applied to the positional-argument tuple. -/
def dillDumpsArgs (args : List Value) : Bytes := encListWith encValue args

/-- dill.loads of a positional-argument tuple. -/
def dillLoadsArgs (b : Bytes) : Option (List Value) :=
  match decListWith decValue b with
  | some (xs, []) => some xs
  | _ => none

/-- dill.dumps applied to the keyword-argument dict. -/
def dillDumpsKwargs (kwargs : List (String × Value)) : Bytes := encListWith encPairSV kwargs

/-- dill.loads of a keyword-argument dict. -/
def dillLoadsKwargs (b : Bytes) : Option (List (String × Value)) :=
  match decListWith decPairSV b with
  | some (xs, []) => some xs
  | _ => none

/-- ModuleDescriptor.forModule(function.__module__).globalize() — modelled as
the module's globalized name (fileStore.py:154). -/
def moduleDescriptorGlobalized : String := "toil.fileStore.fileStore"

/-- DeferredFunction (fileStore.py:130): a namedtuple of the serialized
callable, serialized args, serialized kwargs, the function's name and its
module descriptor. -/
structure DeferredFunction where
  function : Bytes
  args : Bytes
  kwargs : Bytes
  name : String
  module : String
deriving DecidableEq, Repr

/-- DeferredFunction.create (fileStore.py:138-154): serializes the callable
and both argument collections immediately with `dill.dumps` and records the
function's name and module. -/
def DeferredFunction.create (f : PyFunc) (args : List Value)
    (kwargs : List (String × Value)) : DeferredFunction :=
  { function := dillDumpsFunc f
    args := dillDumpsArgs args
    kwargs := dillDumpsKwargs kwargs
    name := f.pyName
    module := moduleDescriptorGlobalized }

/-- DeferredFunction.invoke (fileStore.py:156-163): deserializes the
callable, args and kwargs with `dill.loads` and calls the function; the
result, or any exception the function raises, is passed to the caller. -/
def DeferredFunction.invoke (df : DeferredFunction) : Except PyErr Value :=
  match dillLoadsFunc df.function, dillLoadsArgs df.args, dillLoadsKwargs df.kwargs with
  | some f, some a, some k => f.apply a k
  | _, _, _ => .error .unpicklingError

/-- Whether invoking this deferred function raises an exception. -/
def DeferredFunction.invokeRaises (df : DeferredFunction) : Bool :=
  match df.invoke with
  | .ok _ => false
  | .error _ => true

/-- FileStore._runDeferredFunctions (fileStore.py:462-478).  The loop
invokes every deferred function in order; a raised exception is caught,
logged, and the function's name appended to `failures`.  The first
component records the invocation trace (which functions were invoked, in
order); the second is the `failures` list the Python function returns. -/
def FileStore._runDeferredFunctions : List DeferredFunction → List String × List String
  | [] => ([], [])
  | f :: rest =>
    let r := FileStore._runDeferredFunctions rest
    match f.invoke with
    | .ok _ => (f.name :: r.1, r.2)
    | .error _ => (f.name :: r.1, f.name :: r.2)

/-- Persisted state dictionaries: named attributes mapped to values. -/
abbrev StateDict := List (String × Value)

/-- dill.dump of a state dictionary (fileStore.py:438). -/
def dillDumpDict (d : StateDict) : Bytes := encListWith encPairSV d

/-- dill.load of a state dictionary (fileStore.py:423): a byte string that
is absent a full, valid encoding (truncated, trailing garbage, or corrupt)
fails to unpickle. -/
def dillLoadDict (b : Bytes) : Option StateDict :=
  match decListWith decPairSV b with
  | some (d, []) => some d
  | _ => none

/-- FileStore._StateFile (fileStore.py:392-398): `__init__` copies the
state dictionary into the object's `__dict__`, so the object's attributes
are exactly the mapping's keys and values. -/
structure _StateFile where
  dict : StateDict
deriving DecidableEq, Repr

/-- What `open(fileName, 'rb')` followed by a full read can observe: the
file may be absent, or hold some byte string. -/
inductive FileOnDisk where
  | absent
  | stored (b : Bytes)
deriving DecidableEq, Repr

/-- FileStore._StateFile._load (fileStore.py:411-424): `open` raises
`FileNotFoundError` when the file is absent; `dill.load` raises an
unpickling error when the contents are truncated or corrupt; otherwise the
instance is constructed from the deserialized dictionary. -/
def _StateFile._load (file : FileOnDisk) : Except PyErr _StateFile :=
  match file with
  | .absent => .error .fileNotFoundError
  | .stored b =>
    match dillLoadDict b with
    | some d => .ok ⟨d⟩
    | none => .error .unpicklingError

/-- Contents of a path during `_StateFile.write`: a file being written may
be observed in a torn, incomplete state; `complete` is a fully serialized
record. -/
inductive FileContent where
  | torn
  | complete (d : StateDict)
deriving DecidableEq, Repr

/-- The local filesystem: a map from paths to contents. -/
def FS : Type := String → Option FileContent

/-- Writing (or creating) a file at a path. -/
def fsSet (fs : FS) (p : String) (c : FileContent) : FS :=
  fun q => if q = p then some c else fs q

/-- os.rename(src, dst) (fileStore.py:439): atomic on POSIX; dst takes
src's contents in one step and src disappears. -/
def osRename (fs : FS) (src dst : String) : FS :=
  fun q => if q = dst then fs src else if q = src then none else fs q

/-- The final filesystem after `_StateFile.write(fileName)`
(fileStore.py:426-439): the record is dumped to `fileName + ".tmp"` and
that temp file is renamed over `fileName`. -/
def _StateFile.writeResult (fs : FS) (fileName : String) (d : StateDict) : FS :=
  osRename (fsSet fs (fileName ++ ".tmp") (.complete d)) (fileName ++ ".tmp") fileName

/-- Every filesystem state observable during `_StateFile.write(fileName)`,
in order: before the call, while the temp file is mid-write (torn), after
the temp file is fully written, and after the atomic rename. -/
def _StateFile.writeTrace (fs : FS) (fileName : String) (d : StateDict) : List FS :=
  [fs,
   fsSet fs (fileName ++ ".tmp") .torn,
   fsSet fs (fileName ++ ".tmp") (.complete d),
   _StateFile.writeResult fs fileName d]

/-- Data chunks written to streams (byte strings). -/
abbrev Chunk := List Nat

/-- WriteWatchingStream state (fileStore.py:50-71): the wrapped backing
stream (modelled by the chunks successfully written to it), the listeners
registered via `onWrite` (identified by numeric labels), and the
notification events delivered so far, each `(listener, numBytes)` in
delivery order. -/
structure WriteWatchingStream where
  backing : List Chunk
  writeListeners : List Nat
  events : List (Nat × Nat)
deriving DecidableEq, Repr

/-- WriteWatchingStream.write (fileStore.py:75-85): first the backing
stream's write runs; if it raises (`ok data = false`, modelled as an I/O
`OSError`) the exception propagates and no listener is notified; if it
succeeds, every listener is notified in registration order with
`len(data)`. -/
def WriteWatchingStream.write (ok : Chunk → Bool) (st : WriteWatchingStream)
    (data : Chunk) : WriteWatchingStream × Option PyErr :=
  if ok data then
    ({ st with
        backing := st.backing ++ [data]
        events := st.events ++ st.writeListeners.map (fun l => (l, data.length)) }, none)
  else (st, some (.osError errnoEIO))

/-- WriteWatchingStream.writelines (fileStore.py:87-93): writes each chunk
in turn via `write`; an exception stops the loop and propagates. -/
def WriteWatchingStream.writelines (ok : Chunk → Bool) (st : WriteWatchingStream) :
    List Chunk → WriteWatchingStream × Option PyErr
  | [] => (st, none)
  | data :: rest =>
    match WriteWatchingStream.write ok st data with
    | (st2, none) => WriteWatchingStream.writelines ok st2 rest
    | (st2, some e) => (st2, some e)

/-- FileID (fileStore.py:110-127): a subclass of `str` whose underlying
string value is `fileStoreID` (set by `__new__`) and which carries a
`size` attribute (set by `__init__`). -/
structure FileID where
  key : String
  size : Nat
deriving DecidableEq, Repr

/-- The underlying `str` value of a FileID: `__new__` passes `fileStoreID`
to `str.__new__`, so the string value is the key. -/
def FileID.strValue (f : FileID) : String := f.key

/-- Python's `str.__eq__` inherited by FileID: equality of the underlying
string values; the `size` attribute plays no part. -/
def fileIDEqFileID (a b : FileID) : Bool := a.strValue == b.strValue

/-- Equality between a FileID and a plain string, again inherited from
`str.__eq__`. -/
def fileIDEqStr (f : FileID) (s : String) : Bool := f.strValue == s

/-- A concrete model of CPython's string hash: any function of the
character sequence alone. -/
def pyStrHash (s : String) : Nat :=
  s.data.foldl (fun h c => h * 31 + c.toNat) 7

/-- FileID's `__hash__`, inherited from `str`: a function of the underlying
string value only. -/
def FileID.pyHash (f : FileID) : Nat := pyStrHash f.strValue

/-- The `handle` closure inside writeGlobalFileStream (fileStore.py:311-312):
`fileID.size += numBytes`, mutating the FileID's size in place. -/
def wgfsHandle (fid : FileID) (numBytes : Nat) : FileID :=
  { fid with size := fid.size + numBytes }

/-- The FileID made at the top of writeGlobalFileStream (fileStore.py:305):
`FileID(fileStoreID, 0)` — the key assigned by the backing store, size 0. -/
def writeGlobalFileStreamInit (fileStoreID : String) : FileID :=
  ⟨fileStoreID, 0⟩

/-- One user write inside the writeGlobalFileStream scope: the wrapped
stream forwards the chunk to the backing stream, then the `handle`
listener adds `len(data)` to the FileID's size (fileStore.py:308-313). -/
def wgfsStep (st : List Chunk × FileID) (data : Chunk) : List Chunk × FileID :=
  (st.1 ++ [data], wgfsHandle st.2 data.length)

/-- FileStore.writeGlobalFileStream (fileStore.py:285-315), run over a
sequence of user writes: the backing store assigns `fileStoreID`; the
yielded FileID starts at size 0; every write flows through the
WriteWatchingStream and bumps the size.  Returns the backing stream's
contents and the FileID as mutated by the time the scope exits. -/
def writeGlobalFileStreamRun (fileStoreID : String) (writes : List Chunk) :
    List Chunk × FileID :=
  writes.foldl wgfsStep ([], writeGlobalFileStreamInit fileStoreID)

/-- The backing job store, specified at its interface boundary: a URL-based
importer returns a file-store key; a URL-based export may succeed or raise. -/
structure JobStore where
  importFileF : String → Option String → String
  exportFileF : String → String → Except PyErr Unit

/-- FileStore.importFile (fileStore.py:369-370): returns
`self.jobStore.importFile(srcUrl, sharedFileName=sharedFileName)`. -/
def FileStore.importFile (js : JobStore) (srcUrl : String)
    (sharedFileName : Option String) : String :=
  js.importFileF srcUrl sharedFileName

/-- FileStore.exportFile (fileStore.py:372-373): the body is
`raise NotImplementedError()`. -/
def FileStore.exportFile (_js : JobStore) (_jobStoreFileID _dstUrl : String) :
    Except PyErr Unit :=
  .error .notImplementedError

/-- Modelled from the spec's words for claim C8, to be compared with
`FileStore.exportFile`: "exportFile(id, url): pass-through to the backing
store's URL-based import/export". -/
def exportFileSpecModel (js : JobStore) (jobStoreFileID dstUrl : String) :
    Except PyErr Unit :=
  js.exportFileF jobStoreFileID dstUrl

/-- A concrete backing store whose export succeeds, used to exhibit the
difference between the code and the spec's pass-through description. -/
def jobStoreOkExport : JobStore :=
  { importFileF := fun srcUrl _ => srcUrl
    exportFileF := fun _ _ => .ok () }

/-- A backing stream that accepts chunks of at most two bytes, used to
exercise both the success and the failure path of the stream wrapper. -/
def okW : Chunk → Bool := fun c => decide (c.length ≤ 2)

/-- A concrete wrapped stream with two registered listeners. -/
def stW : WriteWatchingStream :=
  { backing := [], writeListeners := [7, 8], events := [] }

/-- An empty local filesystem. -/
def fsEmpty : FS := fun _ => none

/-- A concrete state dictionary. -/
def dW : StateDict := [("pid", Value.vnat 7)]

/-
Round-trip lemmas for the serialization layer, then one theorem per claim.
-/

theorem decStr_encStr (s : String) (r : Bytes) : decStr (encStr s ++ r) = some (s, r) := by
  have hlen : s.length = (s.data.map Char.toNat).length := by
    rw [List.length_map]
    rfl
  simp only [encStr, List.cons_append, decStr]
  rw [hlen, if_pos (by simp), List.take_left, List.drop_left, List.map_map]
  have hmap : List.map (Char.ofNat ∘ Char.toNat) s.data = s.data := by
    induction s.data with
    | nil => rfl
    | cons c cs ih => simp only [List.map_cons, Function.comp_apply, Char.ofNat_toNat, ih]
  rw [hmap]

theorem decValue_encValue (v : Value) (r : Bytes) : decValue (encValue v ++ r) = some (v, r) := by
  cases v with
  | vnat n => rfl
  | vstr s => simp [encValue, decValue, decStr_encStr]

theorem decListWithAux_roundtrip (dec : Bytes → Option (α × Bytes)) (enc : α → Bytes)
    (h : ∀ x r, dec (enc x ++ r) = some (x, r)) (xs : List α) :
    ∀ r : Bytes,
      decListWithAux dec xs.length (xs.foldr (fun x acc => enc x ++ acc) [] ++ r) = some (xs, r) := by
  induction xs with
  | nil => intro r; simp [decListWithAux]
  | cons x xs ih =>
    intro r
    have hx := h x (xs.foldr (fun x acc => enc x ++ acc) [] ++ r)
    simp only [List.foldr_cons, List.length_cons, List.append_assoc]
    simp [decListWithAux, hx, ih r]

theorem decListWith_encListWith (dec : Bytes → Option (α × Bytes)) (enc : α → Bytes)
    (h : ∀ x r, dec (enc x ++ r) = some (x, r)) (xs : List α) (r : Bytes) :
    decListWith dec (encListWith enc xs ++ r) = some (xs, r) := by
  simp only [encListWith, List.cons_append, decListWith]
  exact decListWithAux_roundtrip dec enc h xs r

theorem decPairSV_encPairSV (p : String × Value) (r : Bytes) :
    decPairSV (encPairSV p ++ r) = some (p, r) := by
  obtain ⟨s, v⟩ := p
  simp [encPairSV, decPairSV, List.append_assoc, decStr_encStr, decValue_encValue]

theorem decPyFunc_encPyFunc (f : PyFunc) (r : Bytes) :
    decPyFunc (encPyFunc f ++ r) = some (f, r) := by
  cases f with
  | sumArgs => rfl
  | constF v => simp [encPyFunc, decPyFunc, decValue_encValue]
  | raising e => rfl

theorem dillLoadsFunc_dillDumpsFunc (f : PyFunc) : dillLoadsFunc (dillDumpsFunc f) = some f := by
  have h := decPyFunc_encPyFunc f []
  rw [List.append_nil] at h
  simp [dillLoadsFunc, dillDumpsFunc, h]

theorem dillLoadsArgs_dillDumpsArgs (args : List Value) :
    dillLoadsArgs (dillDumpsArgs args) = some args := by
  have h := decListWith_encListWith decValue encValue decValue_encValue args []
  rw [List.append_nil] at h
  simp [dillLoadsArgs, dillDumpsArgs, h]

theorem dillLoadsKwargs_dillDumpsKwargs (kwargs : List (String × Value)) :
    dillLoadsKwargs (dillDumpsKwargs kwargs) = some kwargs := by
  have h := decListWith_encListWith decPairSV encPairSV decPairSV_encPairSV kwargs []
  rw [List.append_nil] at h
  simp [dillLoadsKwargs, dillDumpsKwargs, h]

theorem dillLoadDict_dillDumpDict (d : StateDict) : dillLoadDict (dillDumpDict d) = some d := by
  have h := decListWith_encListWith decPairSV encPairSV decPairSV_encPairSV d []
  rw [List.append_nil] at h
  simp [dillLoadDict, dillDumpDict, h]

/-- Claim C5: DeferredFunction.create serializes the callable and both
argument collections immediately at creation time, and invoking the created
record deserializes them and yields exactly the result of calling the
function directly, exceptions included. -/
theorem C5_deferredFunctionRoundTrip (f : PyFunc) (args : List Value)
    (kwargs : List (String × Value)) :
    ((DeferredFunction.create f args kwargs).function = dillDumpsFunc f
      ∧ (DeferredFunction.create f args kwargs).args = dillDumpsArgs args
      ∧ (DeferredFunction.create f args kwargs).kwargs = dillDumpsKwargs kwargs)
    ∧ (DeferredFunction.create f args kwargs).invoke = f.apply args kwargs := by
  refine ⟨⟨rfl, rfl, rfl⟩, ?_⟩
  simp [DeferredFunction.invoke, DeferredFunction.create,
    dillLoadsFunc_dillDumpsFunc, dillLoadsArgs_dillDumpsArgs, dillLoadsKwargs_dillDumpsKwargs]

/-- Claim C4: _runDeferredFunctions invokes every action in sequence order
(first component: the invocation trace lists every action, in order), and
the returned failure list names exactly the actions whose invocation
raised, in order; a raising action never prevents later ones from running. -/
theorem C4_runDeferredFunctions (dfs : List DeferredFunction) :
    (FileStore._runDeferredFunctions dfs).1 = dfs.map DeferredFunction.name
    ∧ (FileStore._runDeferredFunctions dfs).2
        = (dfs.filter DeferredFunction.invokeRaises).map DeferredFunction.name := by
  induction dfs with
  | nil => exact ⟨rfl, rfl⟩
  | cons f rest ih =>
    simp only [FileStore._runDeferredFunctions, List.map_cons, List.filter_cons]
    cases hf : f.invoke with
    | ok v =>
      have hr : f.invokeRaises = false := by simp [DeferredFunction.invokeRaises, hf]
      simp [hr, ih.1, ih.2]
    | error e =>
      have hr : f.invokeRaises = true := by simp [DeferredFunction.invokeRaises, hf]
      simp [hr, ih.1, ih.2]

/-- Claim C7: loading a state file reconstructs exactly the persisted
mapping on success; an absent file fails with the file-not-found error, a
byte string that does not unpickle fails with the unpickling error, the two
errors are distinct, and a successful load can only return the mapping that
was actually stored (never a silent default). -/
theorem C7_stateFileLoad :
    (∀ d : StateDict, _StateFile._load (.stored (dillDumpDict d)) = .ok ⟨d⟩)
    ∧ _StateFile._load .absent = .error .fileNotFoundError
    ∧ (∀ b : Bytes, dillLoadDict b = none →
        _StateFile._load (.stored b) = .error .unpicklingError)
    ∧ (∀ (b : Bytes) (sf : _StateFile), _StateFile._load (.stored b) = .ok sf →
        dillLoadDict b = some sf.dict)
    ∧ PyErr.fileNotFoundError ≠ PyErr.unpicklingError := by
  refine ⟨fun d => ?_, rfl, fun b hb => ?_, fun b sf hsf => ?_, by decide⟩
  · simp [_StateFile._load, dillLoadDict_dillDumpDict]
  · simp [_StateFile._load, hb]
  · revert hsf
    simp only [_StateFile._load]
    cases hd : dillLoadDict b with
    | none => intro h; cases h
    | some d => intro h; cases h; rfl

/-- Witness for C7: a concrete corrupt byte string fails to unpickle and
is reported as the unpickling error, distinct from absence. -/
theorem C7_stateFileLoad_witness :
    dillLoadDict [99] = none ∧ _StateFile._load (.stored [99]) = .error .unpicklingError :=
  ⟨by decide, C7_stateFileLoad.2.2.1 [99] (by decide)⟩

/-
Claims C1 to C3.
-/

/-- Counterexample to claim C1 as stated: when the no-op signal fails with
"permission denied" (EPERM), _pidExists re-raises the OSError instead of
returning True. -/
theorem C1_pidExists_counterexample :
    FileStore._pidExists 4242 (some EPERM) = Except.error (PyErr.osError EPERM)
    ∧ FileStore._pidExists 4242 (some EPERM) ≠ Except.ok true := by
  refine ⟨rfl, ?_⟩
  intro hcontra
  simp [FileStore._pidExists, EPERM, ESRCH] at hcontra

/-- Claim C1 as amended: for every positive pid, _pidExists returns False
exactly when the no-op signal fails with ESRCH; it returns True when the
signal succeeds; and any other OS error, including permission denied, is
re-raised to the caller rather than reported as alive. -/
theorem C1_pidExists_amended (pid : Int) (h : 0 < pid) (killOutcome : Option Nat) :
    FileStore._pidExists pid none = Except.ok true
    ∧ FileStore._pidExists pid (some ESRCH) = Except.ok false
    ∧ (∀ e : Nat, e ≠ ESRCH → FileStore._pidExists pid (some e) = Except.error (PyErr.osError e))
    ∧ (FileStore._pidExists pid killOutcome = Except.ok false ↔ killOutcome = some ESRCH) := by
  refine ⟨?_, ?_, fun e he => ?_, ?_⟩
  · simp [FileStore._pidExists, h]
  · simp [FileStore._pidExists, h]
  · simp [FileStore._pidExists, h, he]
  · cases killOutcome with
    | none => simp [FileStore._pidExists, h]
    | some e =>
      by_cases he : e = ESRCH
      · subst he; simp [FileStore._pidExists, h]
      · simp [FileStore._pidExists, h, he]

/-- Witness for the amended C1 at pid 1, with concrete ESRCH and EPERM
outcomes. -/
theorem C1_pidExists_amended_witness :
    FileStore._pidExists 1 none = Except.ok true
    ∧ FileStore._pidExists 1 (some ESRCH) = Except.ok false
    ∧ FileStore._pidExists 1 (some EPERM) = Except.error (PyErr.osError EPERM)
    ∧ (FileStore._pidExists 1 (some ESRCH) = Except.ok false ↔ some ESRCH = some ESRCH) :=
  ⟨(C1_pidExists_amended 1 (by decide) (some ESRCH)).1,
   (C1_pidExists_amended 1 (by decide) (some ESRCH)).2.1,
   (C1_pidExists_amended 1 (by decide) (some EPERM)).2.2.1 EPERM (by decide),
   (C1_pidExists_amended 1 (by decide) (some ESRCH)).2.2.2⟩

/-- The temp path used by _StateFile.write differs from the target path. -/
theorem ne_append_tmp (p : String) : p ≠ p ++ ".tmp" := by
  intro h
  have hlen := congrArg String.length h
  rw [String.length_append] at hlen
  have h4 : (".tmp" : String).length = 4 := rfl
  omega

/-- Claim C2: during _StateFile.write, a reader of the target path observes
either the previous contents or the new complete record at every
intermediate filesystem state, never a torn record, and after the rename
the path holds the new complete record. -/
theorem C2_stateFileAtomicWrite (fs : FS) (fileName : String) (d : StateDict) :
    (∀ fs2 ∈ _StateFile.writeTrace fs fileName d,
        fs2 fileName = fs fileName ∨ fs2 fileName = some (FileContent.complete d))
    ∧ _StateFile.writeResult fs fileName d fileName = some (FileContent.complete d) := by
  have hne : ¬(fileName = fileName ++ ".tmp") := ne_append_tmp fileName
  constructor
  · intro fs2 h2
    simp only [_StateFile.writeTrace, List.mem_cons, List.not_mem_nil, or_false] at h2
    rcases h2 with h2 | h2 | h2 | h2 <;> subst h2
    · exact Or.inl rfl
    · exact Or.inl (by simp [fsSet, hne])
    · exact Or.inl (by simp [fsSet, hne])
    · exact Or.inr (by simp [_StateFile.writeResult, osRename, fsSet])
  · simp [_StateFile.writeResult, osRename, fsSet]

/-- Witness for C2: the torn-temp-file stage of a concrete write leaves the
target path showing its previous contents. -/
theorem C2_stateFileAtomicWrite_witness :
    fsSet fsEmpty ("state" ++ ".tmp") FileContent.torn ∈ _StateFile.writeTrace fsEmpty "state" dW
    ∧ (fsSet fsEmpty ("state" ++ ".tmp") FileContent.torn "state" = fsEmpty "state"
        ∨ fsSet fsEmpty ("state" ++ ".tmp") FileContent.torn "state"
            = some (FileContent.complete dW)) :=
  ⟨List.mem_cons_of_mem _ (List.mem_cons_self _ _),
   (C2_stateFileAtomicWrite fsEmpty "state" dW).1 _
     (List.mem_cons_of_mem _ (List.mem_cons_self _ _))⟩

/-- Sum of the byte counts a single notification round delivers. -/
theorem map_snd_pairs (ls : List Nat) (m : Nat) :
    ((ls.map (fun l => (l, m))).map Prod.snd).sum = ls.length * m := by
  induction ls with
  | nil => simp
  | cons a ls ih =>
    simp only [List.map_cons, List.sum_cons, List.length_cons, ih]
    ring

/-- Total bytes reported across all notifications for a chunk sequence. -/
theorem flatMap_len_sum (ls : List Nat) (cs : List Chunk) :
    ((cs.flatMap (fun c => ls.map (fun l => (l, c.length)))).map Prod.snd).sum
      = ls.length * (cs.map List.length).sum := by
  induction cs with
  | nil => simp
  | cons c cs ih =>
    simp only [List.flatMap_cons, List.map_append, List.sum_append, List.map_cons,
      List.sum_cons, map_snd_pairs, ih, Nat.mul_add]

/-- Behaviour of writelines when every backing write succeeds: all chunks
reach the backing stream and each listener is notified once per chunk, in
registration order, with the chunk's length. -/
theorem writelines_all_ok (ok : Chunk → Bool) (cs : List Chunk) :
    ∀ st : WriteWatchingStream, (∀ c ∈ cs, ok c = true) →
      WriteWatchingStream.writelines ok st cs =
        ({ backing := st.backing ++ cs,
           writeListeners := st.writeListeners,
           events := st.events
             ++ cs.flatMap (fun c => st.writeListeners.map (fun l => (l, c.length))) }, none) := by
  induction cs with
  | nil => intro st h; simp [WriteWatchingStream.writelines]
  | cons c cs ih =>
    intro st h
    have hc : ok c = true := h c (List.mem_cons_self c cs)
    have hrest : ∀ x ∈ cs, ok x = true := fun x hx => h x (List.mem_cons_of_mem c hx)
    simp only [WriteWatchingStream.writelines, WriteWatchingStream.write, hc, if_true]
    rw [ih _ hrest]
    simp [List.append_assoc]

/-- Claim C3: over any chunk sequence whose backing writes succeed, every
registered listener is notified once per chunk, in registration order, with
exactly the chunk's length, and only after the chunk reaches the backing
stream; a failing backing write notifies nobody; and the accumulated byte
total equals the sum of all chunk lengths regardless of chunking. -/
theorem C3_writeWatchingStream (ok : Chunk → Bool) (st : WriteWatchingStream)
    (cs : List Chunk) (hok : ∀ c ∈ cs, ok c = true) :
    WriteWatchingStream.writelines ok st cs =
      ({ backing := st.backing ++ cs,
         writeListeners := st.writeListeners,
         events := st.events
           ++ cs.flatMap (fun c => st.writeListeners.map (fun l => (l, c.length))) }, none)
    ∧ (∀ data : Chunk, ok data = false →
        WriteWatchingStream.write ok st data = (st, some (PyErr.osError errnoEIO)))
    ∧ ((cs.flatMap (fun c => st.writeListeners.map (fun l => (l, c.length)))).map Prod.snd).sum
        = st.writeListeners.length * (cs.map List.length).sum := by
  refine ⟨writelines_all_ok ok cs st hok, fun data hd => ?_, flatMap_len_sum _ _⟩
  simp [WriteWatchingStream.write, hd]

/-- Witness for C3 on a concrete stream, chunk list and backing stream: two
accepted chunks plus one oversized chunk that the backing stream rejects. -/
theorem C3_writeWatchingStream_witness :
    WriteWatchingStream.writelines okW stW [[1], [2, 3]] =
      ({ backing := stW.backing ++ [[1], [2, 3]],
         writeListeners := stW.writeListeners,
         events := stW.events
           ++ [[1], [2, 3]].flatMap (fun c => stW.writeListeners.map (fun l => (l, c.length))) }, none)
    ∧ WriteWatchingStream.write okW stW [1, 2, 3] = (stW, some (PyErr.osError errnoEIO))
    ∧ (([[1], [2, 3]].flatMap (fun c => stW.writeListeners.map (fun l => (l, c.length)))).map Prod.snd).sum
        = stW.writeListeners.length * ([[1], [2, 3]].map List.length).sum :=
  ⟨(C3_writeWatchingStream okW stW [[1], [2, 3]] (by decide)).1,
   (C3_writeWatchingStream okW stW [[1], [2, 3]] (by decide)).2.1 [1, 2, 3] (by decide),
   (C3_writeWatchingStream okW stW [[1], [2, 3]] (by decide)).2.2⟩

/-
Claims C6, C8, C9, C10.
-/

/-- Running the writeGlobalFileStream loop from any starting backing stream
and FileID: every chunk is appended to the backing stream and the FileID's
size accumulates the chunk lengths while its key never changes. -/
theorem wgfsRun_foldl (writes : List Chunk) :
    ∀ (acc : List Chunk) (fid : FileID),
      writes.foldl wgfsStep (acc, fid)
        = (acc ++ writes, { key := fid.key, size := fid.size + (writes.map List.length).sum }) := by
  induction writes with
  | nil => intro acc fid; simp
  | cons c ws ih =>
    intro acc fid
    rw [List.foldl_cons]
    show ws.foldl wgfsStep (acc ++ [c], wgfsHandle fid c.length) = _
    rw [ih]
    simp [wgfsHandle, Nat.add_assoc]

/-- Claim C6: within writeGlobalFileStream's scope the yielded FileID's size
starts at 0, each write through the wrapped stream increments it in place
by the chunk's byte count, and at scope exit the FileID's size is the total
number of bytes written while its string value is the key the backing store
assigned. -/
theorem C6_writeGlobalFileStreamSize (fileStoreID : String) (writes : List Chunk) :
    (writeGlobalFileStreamInit fileStoreID).size = 0
    ∧ (writeGlobalFileStreamInit fileStoreID).key = fileStoreID
    ∧ (∀ (st : List Chunk × FileID) (data : Chunk),
        (wgfsStep st data).2.size = st.2.size + data.length)
    ∧ (writeGlobalFileStreamRun fileStoreID writes).2
        = { key := fileStoreID, size := (writes.map List.length).sum }
    ∧ (writeGlobalFileStreamRun fileStoreID writes).1 = writes := by
  refine ⟨rfl, rfl, fun st data => rfl, ?_, ?_⟩
  · rw [writeGlobalFileStreamRun, wgfsRun_foldl]
    simp [writeGlobalFileStreamInit]
  · rw [writeGlobalFileStreamRun, wgfsRun_foldl]
    simp

/-- Counterexample to claim C8 as stated: against a backing store whose
URL export succeeds, FileStore.exportFile still raises NotImplementedError
instead of delegating, so it is not a pass-through. -/
theorem C8_exportFile_counterexample :
    FileStore.exportFile jobStoreOkExport "fileID" "s3-url" = Except.error PyErr.notImplementedError
    ∧ exportFileSpecModel jobStoreOkExport "fileID" "s3-url" = Except.ok ()
    ∧ FileStore.exportFile jobStoreOkExport "fileID" "s3-url"
        ≠ exportFileSpecModel jobStoreOkExport "fileID" "s3-url" := by
  refine ⟨rfl, rfl, ?_⟩
  intro hcontra
  simp [FileStore.exportFile, exportFileSpecModel, jobStoreOkExport] at hcontra

/-- Claim C8 as amended: importFile is a pure pass-through to the backing
store's URL import, for every url and shared name; exportFile, however, is
not implemented in this class and raises NotImplementedError for every
input instead of delegating. -/
theorem C8_importExportPassThrough_amended (js : JobStore) (srcUrl : String)
    (sharedFileName : Option String) (jobStoreFileID dstUrl : String) :
    FileStore.importFile js srcUrl sharedFileName = js.importFileF srcUrl sharedFileName
    ∧ FileStore.exportFile js jobStoreFileID dstUrl = Except.error PyErr.notImplementedError :=
  ⟨rfl, rfl⟩

/-- Counterexample to claim C9 as stated: the FileID yielded by
writeGlobalFileStream has its size field changed in place by a subsequent
write (the two observations concern the same identity, whose key is
unchanged but whose size went from 0 to 2). -/
theorem C9_fileIDImmutability_counterexample :
    (writeGlobalFileStreamRun "key" [[10, 20]]).2.size ≠ (writeGlobalFileStreamInit "key").size
    ∧ (writeGlobalFileStreamRun "key" [[10, 20]]).2.key = (writeGlobalFileStreamInit "key").key := by
  exact ⟨by decide, rfl⟩

/-- Claim C9 as amended: a FileID's key string is immutable — no file-store
operation changes it — but its size field is not: writeGlobalFileStream's
write handler increments the yielded FileID's size in place by the bytes
written, so the same key is transiently denoted with different sizes. -/
theorem C9_fileIDKeyImmutable_amended (fid : FileID) (n : Nat) (fileStoreID : String)
    (writes : List Chunk) :
    (wgfsHandle fid n).key = fid.key
    ∧ (writeGlobalFileStreamRun fileStoreID writes).2.key = fileStoreID
    ∧ (wgfsHandle fid n).size = fid.size + n := by
  refine ⟨rfl, ?_, rfl⟩
  rw [writeGlobalFileStreamRun, wgfsRun_foldl]
  simp [writeGlobalFileStreamInit]

/-- Claim C10: FileID identity follows the inherited str semantics — two
FileIDs with the same key compare equal and hash equal whatever their
sizes, a FileID compares equal to its plain key string, and the underlying
string value ignores the size entirely. -/
theorem C10_fileIDStrSemantics (k : String) (s1 s2 : Nat) :
    fileIDEqFileID ⟨k, s1⟩ ⟨k, s2⟩ = true
    ∧ fileIDEqStr ⟨k, s1⟩ k = true
    ∧ FileID.pyHash ⟨k, s1⟩ = FileID.pyHash ⟨k, s2⟩
    ∧ FileID.strValue ⟨k, s1⟩ = k := by
  refine ⟨?_, ?_, rfl, rfl⟩ <;> simp [fileIDEqFileID, fileIDEqStr, FileID.strValue]
